import Mathlib

/-!
Shallow embedding of the microservice upgrade/rollback engine
(`src/microservice/microservice.go`) and proofs about its decision logic.

Conventions of the embedding:
* Go `uint64` timestamps are `Nat`; where the code subtracts two `uint64`
  values the wrap-around is made explicit with `goSub64` (mod `2^64`).
* Go `strings.Compare` (byte-wise ordinal comparison) is `goStringCompare`;
  on the code-point lists of the two strings this coincides with byte-wise
  UTF-8 comparison because UTF-8 preserves code-point order.
* The bolt database is passed to each function as the result it would
  deliver for that function's query: an `Except String` value, `.error`
  standing for a store failure.
* External collaborators that live in other packages of the repository
  (the `persistence` filters, the `exchange` HTTP client, the `policy`
  compiler entry points, the `config` timeout constant) are modelled as
  parameters or, where their semantics matter, as definitions marked
  `Modelled from the spec:`.
* Sending a message on the event channel (`e <- msg`) is modelled by the
  list of messages emitted during the call.
-/

/-- `2^64`, written as a literal so that `omega` can work with it. -/
def two64 : Nat := 18446744073709551616

/-- Go unsigned 64-bit subtraction `a - b`: wraps modulo `2^64`. -/
def goSub64 (a b : Nat) : Nat :=
  (two64 + a % two64 - b % two64) % two64

/-- Lexicographic comparison of code-point lists, mirroring Go
`strings.Compare` (-1 / 0 / 1). -/
def charListCompare : List Char → List Char → Int
  | [], [] => 0
  | [], _ :: _ => -1
  | _ :: _, [] => 1
  | a :: as, b :: bs =>
    if a.toNat < b.toNat then -1
    else if b.toNat < a.toNat then 1
    else charListCompare as bs

/-- Go `strings.Compare` on the two strings. -/
def goStringCompare (a b : String) : Int :=
  charListCompare a.data b.data

deriving instance DecidableEq for Except

/-- Go `strings.ToLower` on the string's code points (`Char.toLower`
lowers the ASCII range, which covers the sharing-mode words the source
compares against). -/
def goToLower (s : String) : String :=
  String.mk (s.data.map Char.toLower)

/-- `persistence.HardwareMatch`. -/
structure HardwareMatch where
  USBDeviceIds : String
  Devfiles : String
deriving Repr, DecidableEq

/-- `persistence.UserInput` (the Go field `Type` is `uiType` here because
`Type` is reserved in Lean). -/
structure UserInput where
  Name : String
  Label : String
  uiType : String
  DefaultValue : String
deriving Repr, DecidableEq

/-- `persistence.WorkloadDeployment`. -/
structure WorkloadDeployment where
  Deployment : String
  DeploymentSignature : String
  Torrent : String
deriving Repr, DecidableEq

/-- `persistence.MicroserviceDefinition`: the node-local install record.
Timestamps are Go `uint64` seconds, 0 meaning "not reached". -/
structure MicroserviceDefinition where
  Id : String
  Owner : String
  Label : String
  Description : String
  SpecRef : String
  Org : String
  Version : String
  Arch : String
  DownloadURL : String
  Sharable : String
  MatchHardware : HardwareMatch
  UserInputs : List UserInput
  Workloads : List WorkloadDeployment
  LastUpdated : String
  MetadataHash : List Nat
  Name : String
  UpgradeVersionRange : String
  AutoUpgrade : Bool
  ActiveUpgrade : Bool
  UpgradeStartTime : Nat
  UpgradeMsUnregisteredTime : Nat
  UpgradeAgreementsClearedTime : Nat
  UpgradeExecutionStartTime : Nat
  UpgradeMsReregisteredTime : Nat
  UpgradeFailedTime : Nat
  UngradeFailureReason : Nat
  UngradeFailureDescription : String
  UpgradeNewMsId : String
  Archived : Bool
deriving Repr, DecidableEq

/-- `persistence.MicroserviceInstance`, restricted to the fields the engine
reads: identity of the backing definition, the filterable keys, and the
agreements currently bound to the instance. -/
structure MicroserviceInstance where
  SpecRef : String
  Version : String
  MicroserviceDefId : String
  AssociatedAgreements : List String
  Archived : Bool
deriving Repr, DecidableEq

/-- `exchange.MicroserviceDefinition`: the registry-side shape, restricted to
the fields `ConvertToPersistent` copies. -/
structure ExchangeMicroserviceDefinition where
  Owner : String
  Label : String
  Description : String
  SpecRef : String
  Version : String
  Arch : String
  Sharable : String
  DownloadURL : String
  MatchHardware : HardwareMatch
  UserInputs : List UserInput
  Workloads : List WorkloadDeployment
  LastUpdated : String
deriving Repr, DecidableEq

/-- Modelled from the spec: sharing mode "exclusive"
(`exchange.MS_SHARING_MODE_EXCLUSIVE`, the `exchange` package is not part of
this source tree; the spec fixes `Sharable ∈ {exclusive, single, multiple}`). -/
def MS_SHARING_MODE_EXCLUSIVE : String := "exclusive"

/-- Modelled from the spec: sharing mode "single"
(`exchange.MS_SHARING_MODE_SINGLE`). -/
def MS_SHARING_MODE_SINGLE : String := "single"

/-- Modelled from the spec: sharing mode "multiple"
(`exchange.MS_SHARING_MODE_MULTIPLE`). -/
def MS_SHARING_MODE_MULTIPLE : String := "multiple"

/-- Modelled from the spec: `persistence.AllInstancesMIFilter(url, version)`,
the record-store filter "all instances of (ref, version)". -/
def AllInstancesMIFilter (specRef version : String) : MicroserviceInstance → Bool :=
  fun i => i.SpecRef == specRef && i.Version == version

/-- Modelled from the spec: `persistence.UnarchivedMIFilter`, the
record-store filter "unarchived instances". -/
def UnarchivedMIFilter : MicroserviceInstance → Bool :=
  fun i => !i.Archived

/-- Modelled from the spec: `persistence.FindMicroserviceInstances(db,
filters)` — the record store returns the stored instances passing every
filter, or a store error. The database argument is the store's answer for
this query: `.error` models a store failure. -/
def FindMicroserviceInstances (db : Except String (List MicroserviceInstance))
    (filters : List (MicroserviceInstance → Bool)) :
    Except String (List MicroserviceInstance) :=
  match db with
  | .error e => .error e
  | .ok l => .ok (l.filter (fun i => filters.all (fun f => f i)))

/-- Modelled from the spec: `persistence.UrlMSFilter(url)`, the record-store
filter "definitions with this SpecRef". -/
def UrlMSFilter (specRef : String) : MicroserviceDefinition → Bool :=
  fun d => d.SpecRef == specRef

/-- Modelled from the spec: `persistence.UrlVersionMSFilter(url, version)`,
the record-store filter "definitions with this SpecRef and Version". -/
def UrlVersionMSFilter (specRef version : String) : MicroserviceDefinition → Bool :=
  fun d => d.SpecRef == specRef && d.Version == version

/-- Modelled from the spec: `persistence.ArchivedMSFilter`, the record-store
filter "archived definitions". -/
def ArchivedMSFilter : MicroserviceDefinition → Bool :=
  fun d => d.Archived

/-- Modelled from the spec: `persistence.FindMicroserviceDefs(db, filters)`
— the record store returns the stored definitions passing every filter, or
a store error. -/
def FindMicroserviceDefs (db : Except String (List MicroserviceDefinition))
    (filters : List (MicroserviceDefinition → Bool)) :
    Except String (List MicroserviceDefinition) :=
  match db with
  | .error e => .error e
  | .ok l => .ok (l.filter (fun d => filters.all (fun f => f d)))

/-- `ConvertToPersistent`: converts a registry-side definition to the
node-local record.  `marshalHash` stands for `json.Marshal` followed by
`sha3.Sum256` (both external); its `.error` case is the marshal failure
branch of the source. -/
def ConvertToPersistent
    (marshalHash : ExchangeMicroserviceDefinition → Except String (List Nat))
    (ems : ExchangeMicroserviceDefinition) (org : String) :
    Except String MicroserviceDefinition :=
  match marshalHash ems with
  | .error e => .error ("Failed to marshal microservice metadata. " ++ e)
  | .ok hash =>
    .ok
      { Id := ""
        Owner := ems.Owner
        Label := ems.Label
        Description := ems.Description
        SpecRef := ems.SpecRef
        Org := org
        Version := ems.Version
        Arch := ems.Arch
        DownloadURL := ems.DownloadURL
        Sharable :=
          (let s := goToLower ems.Sharable
           if s ≠ MS_SHARING_MODE_EXCLUSIVE ∧ s ≠ MS_SHARING_MODE_SINGLE ∧
               s ≠ MS_SHARING_MODE_MULTIPLE then
             MS_SHARING_MODE_EXCLUSIVE
           else s)
        MatchHardware := { USBDeviceIds := ems.MatchHardware.USBDeviceIds,
                           Devfiles := ems.MatchHardware.Devfiles }
        UserInputs := ems.UserInputs.map
          (fun ui => { Name := ui.Name, Label := ui.Label, uiType := ui.uiType,
                       DefaultValue := ui.DefaultValue })
        Workloads := ems.Workloads.map
          (fun wl => { Deployment := wl.Deployment,
                       DeploymentSignature := wl.DeploymentSignature,
                       Torrent := wl.Torrent })
        LastUpdated := ems.LastUpdated
        MetadataHash := hash
        Name := ""
        UpgradeVersionRange := "0.0.0"
        AutoUpgrade := false
        ActiveUpgrade := true
        UpgradeStartTime := 0
        UpgradeMsUnregisteredTime := 0
        UpgradeAgreementsClearedTime := 0
        UpgradeExecutionStartTime := 0
        UpgradeMsReregisteredTime := 0
        UpgradeFailedTime := 0
        UngradeFailureReason := 0
        UngradeFailureDescription := ""
        UpgradeNewMsId := ""
        Archived := false }

/-- `MicroserviceReadyForUpgrade`: eligibility of a definition for upgrade.
The database argument is the instance store's answer to the
`FindMicroserviceInstances` query the function issues. -/
def MicroserviceReadyForUpgrade (msdef : MicroserviceDefinition)
    (db : Except String (List MicroserviceInstance)) : Bool :=
  if msdef.Archived then false
  else if !msdef.AutoUpgrade then false
  else if msdef.UpgradeStartTime ≠ 0 ∧ msdef.UpgradeMsReregisteredTime = 0 ∧
      msdef.UpgradeFailedTime = 0 then false
  else if !msdef.ActiveUpgrade then
    match FindMicroserviceInstances db
        [AllInstancesMIFilter msdef.SpecRef msdef.Version, UnarchivedMIFilter] with
    | .error _ => false
    | .ok ms_insts =>
      if ms_insts.any (fun msi =>
          msi.MicroserviceDefId == msdef.Id && !msi.AssociatedAgreements.isEmpty) then
        false
      else true
  else true

/-- `MicroserviceNeedsRollback`: stall detection.  `now` stands for
`uint64(time.Now().Unix())` and `execTimeout` for the configuration constant
`config.MICROSERVICE_EXEC_TIMEOUT` (both external to this file of the
source). -/
def MicroserviceNeedsRollback (now execTimeout : Nat)
    (msdef : MicroserviceDefinition) : Bool :=
  if msdef.UpgradeStartTime = 0 then false
  else if msdef.UpgradeExecutionStartTime = 0 then
    if goSub64 now msdef.UpgradeStartTime > execTimeout then true
    else false
  else false

/-- `GetUpgradeMicroserviceDef`: resolve the candidate definition to upgrade
to.  `verExprFactory` stands for `policy.Version_Expression_Factory`
followed by `Get_expression`; `getMicroservice` stands for
`exchange.GetMicroservice` with the HTTP client, exchange URL and device
credentials folded into the closure; `marshalHash` is as in
`ConvertToPersistent`; the database argument is the definition store's
answer for the archived-definition query. -/
def GetUpgradeMicroserviceDef
    (verExprFactory : String → Except String String)
    (getMicroservice : String → String → String → String →
      Except String ExchangeMicroserviceDefinition)
    (marshalHash : ExchangeMicroserviceDefinition → Except String (List Nat))
    (msdef : MicroserviceDefinition)
    (db : Except String (List MicroserviceDefinition)) :
    Except String (Option MicroserviceDefinition) :=
  match verExprFactory msdef.UpgradeVersionRange with
  | .error e => .error ("Unable to convert " ++ msdef.UpgradeVersionRange ++
      " to a version expression, error " ++ e)
  | .ok vExp =>
    match getMicroservice msdef.SpecRef msdef.Org vExp msdef.Arch with
    | .error e => .error ("Filed to find a highest version for microservice " ++
        msdef.SpecRef ++ " version range " ++ msdef.UpgradeVersionRange ++ ": " ++ e)
    | .ok e_msdef =>
      match ConvertToPersistent marshalHash e_msdef msdef.Org with
      | .error e => .error
          ("Failed to convert microservice metadata to persistent.MicroserviceDefinition for " ++
            msdef.SpecRef ++ ". " ++ e)
      | .ok new_msdef =>
        -- if the newer version is smaller than the old one, do nothing
        if goStringCompare e_msdef.Version msdef.Version < 0 then .ok none
        else if goStringCompare e_msdef.Version msdef.Version = 0 ∧
            msdef.MetadataHash = new_msdef.MetadataHash then
          .ok none -- no change, do nothing
        else
          -- the archived-definition check runs only when a previous upgrade
          -- attempt is recorded; in either case the code falls through to
          -- copying the node-local choices forward
          if msdef.UpgradeNewMsId ≠ "" then
            match FindMicroserviceDefs db
                [UrlVersionMSFilter new_msdef.SpecRef new_msdef.Version,
                 ArchivedMSFilter] with
            | .error e => .error ("Failed to get archived microservice definition for " ++
                msdef.SpecRef ++ " version " ++ msdef.Version ++ ". " ++ e)
            | .ok msdefs =>
              if msdefs.any (fun ms =>
                  msdef.UpgradeNewMsId == ms.Id &&
                  ms.MetadataHash == new_msdef.MetadataHash) then
                .ok none -- do nothing because upgrade failed before
              else
                .ok (some { new_msdef with
                  Name := msdef.Name
                  UpgradeVersionRange := msdef.UpgradeVersionRange
                  AutoUpgrade := msdef.AutoUpgrade
                  ActiveUpgrade := msdef.ActiveUpgrade })
          else
            .ok (some { new_msdef with
              Name := msdef.Name
              UpgradeVersionRange := msdef.UpgradeVersionRange
              AutoUpgrade := msdef.AutoUpgrade
              ActiveUpgrade := msdef.ActiveUpgrade })

/-- A free-form attribute value (Go `interface\x7b\x7d`), restricted to the
scalar shapes that occur in attribute mappings. -/
inductive PropValue where
  | str (s : String)
  | num (n : Int)
  | flag (b : Bool)
deriving Repr, DecidableEq

/-- `persistence.AttributeMeta`, restricted to the scoping service-URL
list the compiler reads. -/
structure AttributeMeta where
  SensorUrls : List String
deriving Repr, DecidableEq

/-- The `persistence.Attribute` kinds the compiler switches on, each
carrying its meta record; `other` stands for every unrecognized kind. -/
inductive Attribute where
  | compute (meta : AttributeMeta) (cpus ram : Int)
  | architecture (meta : AttributeMeta) (arch : String)
  | ha (meta : AttributeMeta) (partners : List String)
  | metering (meta : AttributeMeta) (tokens : Nat) (perTimeUnit : String)
      (notificationIntervalS : Int)
  | counterParty (meta : AttributeMeta) (expr : List (String × PropValue))
  | property (meta : AttributeMeta) (mappings : List (String × PropValue))
  | agreementProtocol (meta : AttributeMeta) (protocols : List PropValue)
  | other (meta : AttributeMeta)
deriving Repr, DecidableEq

/-- `Attribute.GetMeta()`. -/
def Attribute.getMeta : Attribute → AttributeMeta
  | .compute m _ _ => m
  | .architecture m _ => m
  | .ha m _ => m
  | .metering m _ _ _ => m
  | .counterParty m _ => m
  | .property m _ => m
  | .agreementProtocol m _ => m
  | .other m => m

/-- `policy.Meter`. -/
structure Meter where
  Tokens : Nat
  PerTimeUnit : String
  NotificationIntervalS : Int
deriving Repr, DecidableEq

/-- Go map update `m[k] = v` on an association list: replaces the binding
of `k` if present, appends otherwise. -/
def mapPut (m : List (String × PropValue)) (k : String) (v : PropValue) :
    List (String × PropValue) :=
  match m with
  | [] => [(k, v)]
  | (k', v') :: rest =>
    if k' = k then (k, v) :: rest else (k', v') :: mapPut rest k v

/-- Go map lookup `m[k]` on an association list. -/
def mapGet (m : List (String × PropValue)) (k : String) : Option PropValue :=
  match m with
  | [] => none
  | (k', v') :: rest => if k' = k then some v' else mapGet rest k

/-- The local variables of `GenMicroservicePolicy` that the
`handleServiceAttributes` closure assigns to. -/
structure PolicyVars where
  policyArch : String
  haPartner : List String
  meterPolicy : Meter
  counterPartyProperties : List (String × PropValue)
  properties : List (String × PropValue)
  serviceAgreementProtocols : List PropValue
  props : List (String × PropValue)
deriving Repr, DecidableEq

/-- The zero values the locals of `GenMicroservicePolicy` start with
(`props` is `make(map[string]interface\x7b\x7d)`, the rest are Go zero
values). -/
def initPolicyVars : PolicyVars :=
  { policyArch := ""
    haPartner := []
    meterPolicy := { Tokens := 0, PerTimeUnit := "", NotificationIntervalS := 0 }
    counterPartyProperties := []
    properties := []
    serviceAgreementProtocols := []
    props := [] }

/-- One iteration of the attribute switch inside `handleServiceAttributes`:
each recognized kind overwrites its local variable (`strconv.FormatInt`
is `toString` on `Int`). -/
def applyServiceAttr (s : PolicyVars) (attr : Attribute) : PolicyVars :=
  match attr with
  | .compute _ cpus ram =>
    let withCpus := mapPut s.props "cpus" (.str (toString cpus))
    { s with props := mapPut withCpus "ram" (.str (toString ram)) }
  | .architecture _ arch => { s with policyArch := arch }
  | .ha _ partners => { s with haPartner := partners }
  | .metering _ tokens perTimeUnit notificationIntervalS =>
    let meter : Meter :=
      { Tokens := tokens
        PerTimeUnit := perTimeUnit
        NotificationIntervalS := notificationIntervalS }
    { s with meterPolicy := meter }
  | .counterParty _ expr => { s with counterPartyProperties := expr }
  | .property _ mappings => { s with properties := mappings }
  | .agreementProtocol _ protocols =>
    { s with serviceAgreementProtocols := protocols }
  | .other _ => s

/-- The `handleServiceAttributes` closure: run the switch over the given
attributes, then merge the current value of the shared `properties`
variable into the `props` bag (the Go guard is `len(properties) > 0`;
merging an empty map is a no-op either way). -/
def handleServiceAttributes (s : PolicyVars) (attributes : List Attribute) :
    PolicyVars :=
  let s1 := attributes.foldl applyServiceAttr s
  if s1.properties.isEmpty then s1
  else { s1 with
    props := s1.properties.foldl (fun p kv => mapPut p kv.1 kv.2) s1.props }

/-- The arguments `GenMicroservicePolicy` hands to
`policy.GeneratePolicy`. -/
structure PolicyInputs where
  specRef : String
  org : String
  name : String
  version : String
  arch : String
  props : List (String × PropValue)
  haPartner : List String
  meterPolicy : Meter
  counterPartyProperties : List (String × PropValue)
  protocols : List String
  maxAgreements : Nat
deriving Repr, DecidableEq

/-- The event message `policy.GeneratePolicy` produces and
`GenMicroservicePolicy` sends on its channel; it carries the compiled
policy inputs. -/
structure Message where
  inputs : PolicyInputs
deriving Repr, DecidableEq

/-- The final value of the compiler's local variables for a given
attribute list: the attributes are divided into the common (unscoped) and
specific (scoped) groups and `handleServiceAttributes` runs on the common
group first, then on the specific group. -/
def policyVarsFor (orig_attributes : List Attribute) : PolicyVars :=
  -- divide the attributes into 2 groups, common and specific, then parse
  -- the common attributes first and the specific ones second
  handleServiceAttributes
    (handleServiceAttributes initPolicyVars
      (orig_attributes.filter (fun a => a.getMeta.SensorUrls.isEmpty)))
    (orig_attributes.filter (fun a => !a.getMeta.SensorUrls.isEmpty))

/-- The `maxAgreements` value `GenMicroservicePolicy` derives from the
sharing mode (hard coded 2 for now for single and multiple). -/
def maxAgreementsFor (sharable : String) : Nat :=
  if sharable = MS_SHARING_MODE_SINGLE ∨ sharable = MS_SHARING_MODE_MULTIPLE then 2
  else 1

/-- `GenMicroservicePolicy`: compile the applicable attributes into a
policy document and emit it.  `findApplicableAttributes` is the attribute
store's answer to `persistence.FindApplicableAttributes(db, msdef.SpecRef)`;
`convertToAgreementProtocolList` stands for
`policy.ConvertToAgreementProtocolList`; `generatePolicy` stands for
`policy.GeneratePolicy` on the inputs the source passes it.  The second
component of the result collects the messages sent on the event channel. -/
def GenMicroservicePolicy
    (findApplicableAttributes : Except String (List Attribute))
    (convertToAgreementProtocolList : List PropValue → Except String (List String))
    (generatePolicy : PolicyInputs → Except String Message)
    (msdef : MicroserviceDefinition) : Except String Unit × List Message :=
  match findApplicableAttributes with
  | .error e =>
    (.error ("Failed to get the microservice attributes for " ++ msdef.SpecRef ++
      " from db. " ++ e), [])
  | .ok orig_attributes =>
    match convertToAgreementProtocolList
        (policyVarsFor orig_attributes).serviceAgreementProtocols with
    | .error e =>
      (.error ("Error converting agreement protocol list attribute to agreement protocol list, error: " ++ e),
       [])
    | .ok list =>
      match generatePolicy
          { specRef := msdef.SpecRef
            org := msdef.Org
            name := msdef.Name
            version := msdef.Version
            arch := (policyVarsFor orig_attributes).policyArch
            props := (policyVarsFor orig_attributes).props
            haPartner := (policyVarsFor orig_attributes).haPartner
            meterPolicy := (policyVarsFor orig_attributes).meterPolicy
            counterPartyProperties :=
              (policyVarsFor orig_attributes).counterPartyProperties
            protocols := list
            maxAgreements := maxAgreementsFor msdef.Sharable } with
      | .error e =>
        (.error ("Failed to generate policy for " ++ msdef.SpecRef ++ " version " ++
          msdef.Version ++ ". Error: " ++ e), [])
      | .ok msg => (.ok (), [msg])

/-- `GetRollbackMicroserviceDef`: locate the archived predecessor of the
given definition.  The database argument is the definition store's answer
for the archived-by-url query. -/
def GetRollbackMicroserviceDef (msdef : MicroserviceDefinition)
    (db : Except String (List MicroserviceDefinition)) :
    Except String (Option MicroserviceDefinition) :=
  match FindMicroserviceDefs db [UrlMSFilter msdef.SpecRef, ArchivedMSFilter] with
  | .error e => .error ("Filed to get archived microservice definition for " ++
      msdef.SpecRef ++ ". " ++ e)
  | .ok msdefs => .ok (msdefs.find? (fun ms => ms.UpgradeNewMsId == msdef.Id))

/-! ### Concrete records used to exercise the definitions -/

/-- An all-zero hardware match record. -/
def emptyHardwareMatch : HardwareMatch := { USBDeviceIds := "", Devfiles := "" }

/-- A definition record with every field at its Go zero value (except
`ActiveUpgrade`, which `ConvertToPersistent` defaults to true). -/
def emptyMsDef : MicroserviceDefinition :=
  { Id := ""
    Owner := ""
    Label := ""
    Description := ""
    SpecRef := ""
    Org := ""
    Version := ""
    Arch := ""
    DownloadURL := ""
    Sharable := ""
    MatchHardware := emptyHardwareMatch
    UserInputs := []
    Workloads := []
    LastUpdated := ""
    MetadataHash := []
    Name := ""
    UpgradeVersionRange := "0.0.0"
    AutoUpgrade := false
    ActiveUpgrade := true
    UpgradeStartTime := 0
    UpgradeMsUnregisteredTime := 0
    UpgradeAgreementsClearedTime := 0
    UpgradeExecutionStartTime := 0
    UpgradeMsReregisteredTime := 0
    UpgradeFailedTime := 0
    UngradeFailureReason := 0
    UngradeFailureDescription := ""
    UpgradeNewMsId := ""
    Archived := false }

/-- A definition whose upgrade started at second 1000 and whose execution
has not begun. -/
def stalledMsDef : MicroserviceDefinition :=
  { emptyMsDef with UpgradeStartTime := 1000 }

/-- A definition whose upgrade-start timestamp (second 2000) lies in the
future of the clock values used with it. -/
def futureStartMsDef : MicroserviceDefinition :=
  { emptyMsDef with UpgradeStartTime := 2000 }

/-- An archived definition. -/
def archivedMsDef : MicroserviceDefinition := { emptyMsDef with Archived := true }

/-- An auto-upgradeable, inactive-upgrade definition used in the
agreement-check scenarios. -/
def agMsDef : MicroserviceDefinition :=
  { emptyMsDef with
    Id := "def1"
    SpecRef := "https://ms/gps"
    Version := "1.0.0"
    AutoUpgrade := true
    ActiveUpgrade := false }

/-- A running instance of `agMsDef`'s (SpecRef, Version) that is backed by a
DIFFERENT definition record and holds a live agreement. -/
def agInstOther : MicroserviceInstance :=
  { SpecRef := "https://ms/gps"
    Version := "1.0.0"
    MicroserviceDefId := "def2"
    AssociatedAgreements := ["agreement1"]
    Archived := false }

/-- A running instance backed by `agMsDef` itself, holding a live
agreement. -/
def agInstSelf : MicroserviceInstance :=
  { agInstOther with MicroserviceDefId := "def1" }

/-- A registry-side candidate at version 2.0.0. -/
def regEms : ExchangeMicroserviceDefinition :=
  { Owner := "owner"
    Label := "lbl"
    Description := "dsc"
    SpecRef := "https://ms/gps"
    Version := "2.0.0"
    Arch := "amd64"
    Sharable := "single"
    DownloadURL := "url"
    MatchHardware := emptyHardwareMatch
    UserInputs := []
    Workloads := []
    LastUpdated := "t1" }

/-- A registry-side candidate at the lower version 0.9.0. -/
def regEmsOld : ExchangeMicroserviceDefinition := { regEms with Version := "0.9.0" }

/-- The hash the marshal/digest collaborator assigns to the candidate. -/
def regHash : List Nat := [7]

/-- The currently installed definition at version 1.0.0 whose previous
upgrade attempt produced the archived record "X". -/
def curMsDef : MicroserviceDefinition :=
  { emptyMsDef with
    Id := "cur"
    SpecRef := "https://ms/gps"
    Org := "org1"
    Version := "1.0.0"
    Arch := "amd64"
    Name := "gps"
    AutoUpgrade := true
    ActiveUpgrade := false
    UpgradeNewMsId := "X"
    MetadataHash := [9] }

/-- The archived record "X" of the earlier failed upgrade attempt: same
hash as the current registry candidate but a different version. -/
def oldArchivedMsDef : MicroserviceDefinition :=
  { emptyMsDef with
    Id := "X"
    SpecRef := "https://ms/gps"
    Version := "1.0.0"
    Archived := true
    MetadataHash := [7] }

/-- Resolver run for `curMsDef` against the version-2.0.0 candidate with
the archived record "X" in the store. -/
def retryGuardRun : Except String (Option MicroserviceDefinition) :=
  GetUpgradeMicroserviceDef (fun _ => .ok "vexp") (fun _ _ _ _ => .ok regEms)
    (fun _ => .ok regHash) curMsDef (.ok [oldArchivedMsDef])

/-- `curMsDef` without the back-reference to a previous upgrade attempt. -/
def noRetryMsDef : MicroserviceDefinition := { curMsDef with UpgradeNewMsId := "" }

/-- Resolver run for `noRetryMsDef` against the version-2.0.0 candidate. -/
def upgradeRun : Except String (Option MicroserviceDefinition) :=
  GetUpgradeMicroserviceDef (fun _ => .ok "vexp") (fun _ _ _ _ => .ok regEms)
    (fun _ => .ok regHash) noRetryMsDef (.ok [])

/-- The candidate record `upgradeRun` produces: the conversion of `regEms`
with the node-local choices of `noRetryMsDef` copied forward. -/
def upgradedMsDef : MicroserviceDefinition :=
  { Id := ""
    Owner := "owner"
    Label := "lbl"
    Description := "dsc"
    SpecRef := "https://ms/gps"
    Org := "org1"
    Version := "2.0.0"
    Arch := "amd64"
    DownloadURL := "url"
    Sharable := "single"
    MatchHardware := emptyHardwareMatch
    UserInputs := []
    Workloads := []
    LastUpdated := "t1"
    MetadataHash := [7]
    Name := "gps"
    UpgradeVersionRange := "0.0.0"
    AutoUpgrade := true
    ActiveUpgrade := false
    UpgradeStartTime := 0
    UpgradeMsUnregisteredTime := 0
    UpgradeAgreementsClearedTime := 0
    UpgradeExecutionStartTime := 0
    UpgradeMsReregisteredTime := 0
    UpgradeFailedTime := 0
    UngradeFailureReason := 0
    UngradeFailureDescription := ""
    UpgradeNewMsId := ""
    Archived := false }

/-- A definition with exclusive sharing whose policy is being compiled. -/
def polMsDef : MicroserviceDefinition :=
  { emptyMsDef with
    SpecRef := "https://ms/gps"
    Org := "org1"
    Name := "gps"
    Version := "1.0.0"
    Sharable := "exclusive" }

/-- A common (unscoped) property attribute mapping "loc" to "common". -/
def commonPropAttr : Attribute :=
  .property { SensorUrls := [] } [("loc", .str "common")]

/-- A specific (scoped) property attribute mapping "loc" to "specific". -/
def specificPropAttr : Attribute :=
  .property { SensorUrls := ["https://ms/gps"] } [("loc", .str "specific")]

/-- A second specific property attribute, mapping only "extra". -/
def specificPropAttr2 : Attribute :=
  .property { SensorUrls := ["https://ms/gps"] } [("extra", .str "e1")]

/-- Policy compilation where a second specific property attribute follows
the one that overrides "loc". -/
def lastWinsRun : Except String Unit × List Message :=
  GenMicroservicePolicy (.ok [commonPropAttr, specificPropAttr, specificPropAttr2])
    (fun _ => .ok []) (fun i => .ok { inputs := i }) polMsDef

/-- Policy compilation with one common and one specific property attribute
that both define "loc". -/
def overrideRun : Except String Unit × List Message :=
  GenMicroservicePolicy (.ok [commonPropAttr, specificPropAttr])
    (fun _ => .ok []) (fun i => .ok { inputs := i }) polMsDef

/-- Policy compilation of `polMsDef` with no applicable attributes. -/
def exclusivePolicyRun : Except String Unit × List Message :=
  GenMicroservicePolicy (.ok []) (fun _ => .ok [])
    (fun i => .ok { inputs := i }) polMsDef

/-- The message `exclusivePolicyRun` emits. -/
def exclusivePolicyMsg : Message :=
  { inputs :=
    { specRef := "https://ms/gps"
      org := "org1"
      name := "gps"
      version := "1.0.0"
      arch := ""
      props := []
      haPartner := []
      meterPolicy := { Tokens := 0, PerTimeUnit := "", NotificationIntervalS := 0 }
      counterPartyProperties := []
      protocols := []
      maxAgreements := 1 } }

/-- The message `overrideRun` emits: the specific value wins for "loc". -/
def overrideMsg : Message :=
  { inputs :=
    { specRef := "https://ms/gps"
      org := "org1"
      name := "gps"
      version := "1.0.0"
      arch := ""
      props := [("loc", PropValue.str "specific")]
      haPartner := []
      meterPolicy := { Tokens := 0, PerTimeUnit := "", NotificationIntervalS := 0 }
      counterPartyProperties := []
      protocols := []
      maxAgreements := 1 } }

/-! ### Helper lemmas -/

/-- `find?` over a filtered list is `find?` with the conjoined predicate. -/
theorem list_find?_filter {α : Type} (l : List α) (p q : α → Bool) :
    (l.filter p).find? q = l.find? (fun x => p x && q x) := by
  induction l with
  | nil => rfl
  | cons a t ih =>
    by_cases hp : p a
    · by_cases hq : q a
      · simp [List.filter_cons, hp, List.find?_cons, hq]
      · simp [List.filter_cons, hp, List.find?_cons, hq, ih]
    · simp [List.filter_cons, hp, List.find?_cons, ih]

/-- Updating a key makes it present with the new value. -/
theorem mapGet_mapPut_self (p : List (String × PropValue)) (k : String)
    (v : PropValue) : mapGet (mapPut p k v) k = some v := by
  induction p with
  | nil => simp [mapPut, mapGet]
  | cons a rest ih =>
    obtain ⟨k', v'⟩ := a
    by_cases h : k' = k
    · simp [mapPut, h, mapGet]
    · simp [mapPut, h, mapGet, ih]

/-- Updating one key leaves lookups of other keys unchanged. -/
theorem mapGet_mapPut_ne (p : List (String × PropValue)) (k k2 : String)
    (v : PropValue) (h : k2 ≠ k) : mapGet (mapPut p k2 v) k = mapGet p k := by
  induction p with
  | nil => simp [mapPut, mapGet, h]
  | cons a rest ih =>
    obtain ⟨k', v'⟩ := a
    by_cases h' : k' = k2
    · subst h'
      simp [mapPut, mapGet, h]
    · simp [mapPut, h', mapGet, ih]

/-- Folding a map whose keys avoid `k` into a bag leaves `k`'s binding
unchanged. -/
theorem mapGet_foldl_mapPut_not_mem (m : List (String × PropValue))
    (p : List (String × PropValue)) (k : String)
    (h : k ∉ m.map Prod.fst) :
    mapGet (m.foldl (fun acc kv => mapPut acc kv.1 kv.2) p) k = mapGet p k := by
  induction m generalizing p with
  | nil => rfl
  | cons a rest ih =>
    obtain ⟨k', v'⟩ := a
    simp only [List.map_cons, List.mem_cons] at h
    push_neg at h
    rw [List.foldl_cons, ih (mapPut p k' v') h.2, mapGet_mapPut_ne p k k' v'
      (by simpa using h.1.symm)]

/-- Folding a duplicate-free map into a bag makes each of its bindings the
final one. -/
theorem mapGet_foldl_mapPut_of_mem (m : List (String × PropValue))
    (p : List (String × PropValue)) (k : String) (v : PropValue)
    (hget : mapGet m k = some v) (hnd : (m.map Prod.fst).Nodup) :
    mapGet (m.foldl (fun acc kv => mapPut acc kv.1 kv.2) p) k = some v := by
  induction m generalizing p with
  | nil => simp [mapGet] at hget
  | cons a rest ih =>
    obtain ⟨k', v'⟩ := a
    simp only [List.map_cons, List.nodup_cons] at hnd
    by_cases h : k' = k
    · subst h
      simp only [mapGet, if_true, eq_self_iff_true, Option.some.injEq] at hget
      subst hget
      rw [List.foldl_cons, mapGet_foldl_mapPut_not_mem rest (mapPut p k' v') k'
        hnd.1, mapGet_mapPut_self]
    · simp only [mapGet, if_neg h] at hget
      rw [List.foldl_cons]
      exact ih (mapPut p k' v') hget hnd.2

/-! ### Claim theorems -/

/-- C1: `MicroserviceNeedsRollback` returns true iff the upgrade has
started (`UpgradeStartTime ≠ 0`), execution has not begun
(`UpgradeExecutionStartTime = 0`), and `now - UpgradeStartTime` (uint64
subtraction, as the code computes it) strictly exceeds the execution
timeout; at the boundary, where the difference equals the timeout exactly,
it returns false. -/
theorem microserviceNeedsRollback_iff (now execTimeout : Nat)
    (msdef : MicroserviceDefinition) :
    (MicroserviceNeedsRollback now execTimeout msdef = true ↔
      (msdef.UpgradeStartTime ≠ 0 ∧ msdef.UpgradeExecutionStartTime = 0 ∧
        execTimeout < goSub64 now msdef.UpgradeStartTime)) ∧
    (goSub64 now msdef.UpgradeStartTime = execTimeout →
      MicroserviceNeedsRollback now execTimeout msdef = false) := by
  unfold MicroserviceNeedsRollback
  constructor
  · split_ifs with h1 h2 h3 <;> simp_all
  · intro hb
    split_ifs with h1 h2 h3 <;> simp_all

/-- C1 witness: at the exact boundary (start 1000, now 1300, timeout 300)
no rollback is signalled. -/
theorem microserviceNeedsRollback_iff_witness :
    MicroserviceNeedsRollback 1300 300 stalledMsDef = false :=
  (microserviceNeedsRollback_iff 1300 300 stalledMsDef).2 (by decide)

/-- C10: with a start timestamp in the future of the clock (and execution
not begun), the uint64 subtraction wraps modulo `2^64` to
`2^64 - (start - now)`, which exceeds the timeout (whenever
`start - now + timeout` does not itself reach `2^64`), so
`MicroserviceNeedsRollback` returns true. -/
theorem microserviceNeedsRollback_future_start (now execTimeout : Nat)
    (msdef : MicroserviceDefinition)
    (h0 : msdef.UpgradeStartTime ≠ 0)
    (hexec : msdef.UpgradeExecutionStartTime = 0)
    (hlt : now < msdef.UpgradeStartTime)
    (hb : msdef.UpgradeStartTime < two64)
    (hto : msdef.UpgradeStartTime - now + execTimeout < two64) :
    goSub64 now msdef.UpgradeStartTime = two64 - (msdef.UpgradeStartTime - now) ∧
    execTimeout < goSub64 now msdef.UpgradeStartTime ∧
    MicroserviceNeedsRollback now execTimeout msdef = true := by
  have hsub : goSub64 now msdef.UpgradeStartTime =
      two64 - (msdef.UpgradeStartTime - now) := by
    simp only [goSub64, two64] at *
    omega
  have hgt : execTimeout < goSub64 now msdef.UpgradeStartTime := by
    rw [hsub]
    simp only [two64] at *
    omega
  exact ⟨hsub, hgt, by simp [MicroserviceNeedsRollback, h0, hexec, hgt]⟩

/-- C10 witness: start 2000 with now 1000 and timeout 300 wraps to
`2^64 - 1000` and signals rollback. -/
theorem microserviceNeedsRollback_future_start_witness :
    goSub64 1000 futureStartMsDef.UpgradeStartTime =
      two64 - (futureStartMsDef.UpgradeStartTime - 1000) ∧
    300 < goSub64 1000 futureStartMsDef.UpgradeStartTime ∧
    MicroserviceNeedsRollback 1000 300 futureStartMsDef = true :=
  microserviceNeedsRollback_future_start 1000 300 futureStartMsDef
    (by decide) (by decide) (by decide) (by decide) (by decide)

/-- C5: an archived definition, a definition with `AutoUpgrade = false`, or
a definition mid-upgrade (`UpgradeStartTime ≠ 0`,
`UpgradeMsReregisteredTime = 0`, `UpgradeFailedTime = 0`) is never ready
for upgrade, whatever the other fields and the instance store hold. -/
theorem microserviceReadyForUpgrade_gate (msdef : MicroserviceDefinition)
    (db : Except String (List MicroserviceInstance))
    (h : msdef.Archived = true ∨ msdef.AutoUpgrade = false ∨
      (msdef.UpgradeStartTime ≠ 0 ∧ msdef.UpgradeMsReregisteredTime = 0 ∧
        msdef.UpgradeFailedTime = 0)) :
    MicroserviceReadyForUpgrade msdef db = false := by
  unfold MicroserviceReadyForUpgrade
  rcases h with h | h | ⟨h1, h2, h3⟩ <;> split_ifs <;> simp_all

/-- C5 witness: an archived definition is rejected. -/
theorem microserviceReadyForUpgrade_gate_witness :
    MicroserviceReadyForUpgrade archivedMsDef (.ok []) = false :=
  microserviceReadyForUpgrade_gate archivedMsDef (.ok []) (Or.inl rfl)

/-- C3 counterexample: a running, unarchived instance of `agMsDef`'s exact
(SpecRef, Version) holds a live agreement, yet the definition is still
judged ready for upgrade, because the instance is backed by a different
definition record (`MicroserviceDefId` mismatch) — the claim asserts the
result must be false here. -/
theorem microserviceReadyForUpgrade_agreements_counterexample :
    agMsDef.Archived = false ∧ agMsDef.AutoUpgrade = true ∧
    agMsDef.UpgradeStartTime = 0 ∧ agMsDef.ActiveUpgrade = false ∧
    agInstOther.Archived = false ∧ agInstOther.SpecRef = agMsDef.SpecRef ∧
    agInstOther.Version = agMsDef.Version ∧
    agInstOther.AssociatedAgreements ≠ [] ∧
    MicroserviceReadyForUpgrade agMsDef (.ok [agInstOther]) = true := by
  decide

/-- C3 (amended): for a definition with `ActiveUpgrade = false` that passes
the archived, auto-upgrade and mid-upgrade checks, eligibility is denied
whenever a running (unarchived) instance of the same (SpecRef, Version)
WHOSE `MicroserviceDefId` EQUALS THE DEFINITION'S `Id` has a non-empty
agreement set, and it is denied whenever the instance-store lookup fails. -/
theorem microserviceReadyForUpgrade_agreements_block :
    (∀ (msdef : MicroserviceDefinition) (l : List MicroserviceInstance)
        (i : MicroserviceInstance),
      msdef.Archived = false → msdef.AutoUpgrade = true →
      ¬(msdef.UpgradeStartTime ≠ 0 ∧ msdef.UpgradeMsReregisteredTime = 0 ∧
          msdef.UpgradeFailedTime = 0) →
      msdef.ActiveUpgrade = false →
      i ∈ l → i.Archived = false → i.SpecRef = msdef.SpecRef →
      i.Version = msdef.Version → i.MicroserviceDefId = msdef.Id →
      i.AssociatedAgreements ≠ [] →
      MicroserviceReadyForUpgrade msdef (.ok l) = false) ∧
    (∀ (msdef : MicroserviceDefinition) (e : String),
      msdef.ActiveUpgrade = false →
      MicroserviceReadyForUpgrade msdef (.error e) = false) := by
  constructor
  · intro msdef l i hA hU hM hAct hmem hiA hiS hiV hiD hags
    unfold MicroserviceReadyForUpgrade
    rw [if_neg (by simp [hA]), if_neg (by simp [hU]), if_neg hM,
      if_pos (by simp [hAct])]
    simp only [FindMicroserviceInstances]
    have hany : (l.filter (fun j =>
        [AllInstancesMIFilter msdef.SpecRef msdef.Version,
          UnarchivedMIFilter].all (fun f => f j))).any
        (fun msi => msi.MicroserviceDefId == msdef.Id &&
          !msi.AssociatedAgreements.isEmpty) = true := by
      apply List.any_eq_true.mpr
      refine ⟨i, List.mem_filter.mpr ⟨hmem, ?_⟩, ?_⟩
      · simp [AllInstancesMIFilter, UnarchivedMIFilter, hiS, hiV, hiA]
      · obtain ⟨a, t, hat⟩ := List.exists_cons_of_ne_nil hags
        simp [hiD, hat]
    rw [if_pos hany]
  · intro msdef e hAct
    unfold MicroserviceReadyForUpgrade
    split_ifs <;> simp_all [FindMicroserviceInstances]

/-- C3 witness: the matching instance `agInstSelf` (same definition id)
with a live agreement blocks the upgrade. -/
theorem microserviceReadyForUpgrade_agreements_block_witness :
    MicroserviceReadyForUpgrade agMsDef (.ok [agInstSelf]) = false :=
  microserviceReadyForUpgrade_agreements_block.1 agMsDef [agInstSelf] agInstSelf
    rfl rfl (by decide) rfl (by decide) rfl rfl rfl rfl (by decide)

/-- C8: on a successful store read, `GetRollbackMicroserviceDef` returns
exactly the first stored definition that is archived, shares the
definition's `SpecRef`, and back-references it through `UpgradeNewMsId`
(`none` when no such record exists); the model is read-only, matching the
source, which issues no store writes. -/
theorem getRollbackMicroserviceDef_first_match (msdef : MicroserviceDefinition)
    (l : List MicroserviceDefinition) :
    GetRollbackMicroserviceDef msdef (.ok l) =
      .ok (l.find? (fun ms => ms.SpecRef == msdef.SpecRef && ms.Archived &&
        ms.UpgradeNewMsId == msdef.Id)) := by
  unfold GetRollbackMicroserviceDef
  simp only [FindMicroserviceDefs]
  rw [list_find?_filter]
  congr 1
  congr 1
  funext x
  simp [UrlMSFilter, ArchivedMSFilter]

/-- C2 counterexample: `curMsDef` carries the back-reference "X", the
archived record "X" exists and its hash equals the candidate's hash, yet
the resolver does NOT return `(nil, nil)` — the archived record is at
version 1.0.0 while the store lookup filters by the candidate's version
2.0.0, so the retry guard never sees it. -/
theorem getUpgradeMicroserviceDef_retry_counterexample :
    curMsDef.UpgradeNewMsId ≠ "" ∧
    oldArchivedMsDef.Id = curMsDef.UpgradeNewMsId ∧
    oldArchivedMsDef.Archived = true ∧
    oldArchivedMsDef.SpecRef = curMsDef.SpecRef ∧
    oldArchivedMsDef.MetadataHash = regHash ∧
    retryGuardRun ≠ .ok none := by
  decide

/-- C2 (amended): once the version expression, the registry fetch and the
hash computation have succeeded, `GetUpgradeMicroserviceDef` returns
`(nil, nil)` when (a) the candidate's version compares below the current
one under ordinal string comparison, (b) the versions compare equal and the
hashes match, or (c) the definition carries a non-empty `UpgradeNewMsId`
and the store holds an archived record with that id WHOSE `SpecRef` AND
`Version` EQUAL THE CANDIDATE'S and whose hash equals the candidate's. -/
theorem getUpgradeMicroserviceDef_no_change
    (vf : String → Except String String)
    (gm : String → String → String → String →
      Except String ExchangeMicroserviceDefinition)
    (mh : ExchangeMicroserviceDefinition → Except String (List Nat))
    (msdef : MicroserviceDefinition)
    (db : Except String (List MicroserviceDefinition))
    (l : List MicroserviceDefinition) (m : MicroserviceDefinition)
    (vExp : String) (ems : ExchangeMicroserviceDefinition) (h : List Nat)
    (hvf : vf msdef.UpgradeVersionRange = .ok vExp)
    (hgm : gm msdef.SpecRef msdef.Org vExp msdef.Arch = .ok ems)
    (hmh : mh ems = .ok h) :
    (goStringCompare ems.Version msdef.Version < 0 →
      GetUpgradeMicroserviceDef vf gm mh msdef db = .ok none) ∧
    (goStringCompare ems.Version msdef.Version = 0 → msdef.MetadataHash = h →
      GetUpgradeMicroserviceDef vf gm mh msdef db = .ok none) ∧
    (msdef.UpgradeNewMsId ≠ "" → m ∈ l → m.Archived = true →
      m.SpecRef = ems.SpecRef → m.Version = ems.Version →
      m.Id = msdef.UpgradeNewMsId → m.MetadataHash = h →
      GetUpgradeMicroserviceDef vf gm mh msdef (.ok l) = .ok none) := by
  refine ⟨?_, ?_, ?_⟩
  · intro hlt
    simp only [GetUpgradeMicroserviceDef, hvf, hgm, ConvertToPersistent, hmh]
    rw [if_pos hlt]
  · intro heq hhash
    simp only [GetUpgradeMicroserviceDef, hvf, hgm, ConvertToPersistent, hmh]
    rw [if_neg (by omega), if_pos ⟨heq, hhash⟩]
  · intro hne hmem hmArch hmSpec hmVer hmId hmHash
    simp only [GetUpgradeMicroserviceDef, hvf, hgm, ConvertToPersistent, hmh]
    by_cases hlt : goStringCompare ems.Version msdef.Version < 0
    · rw [if_pos hlt]
    · rw [if_neg hlt]
      by_cases heq : goStringCompare ems.Version msdef.Version = 0 ∧
          msdef.MetadataHash = h
      · rw [if_pos heq]
      · rw [if_neg heq, if_pos hne]
        simp only [FindMicroserviceDefs]
        have hany : (l.filter (fun d =>
            [UrlVersionMSFilter ems.SpecRef ems.Version,
              ArchivedMSFilter].all (fun f => f d))).any
            (fun ms => msdef.UpgradeNewMsId == ms.Id &&
              ms.MetadataHash == h) = true := by
          apply List.any_eq_true.mpr
          refine ⟨m, List.mem_filter.mpr ⟨hmem, ?_⟩, ?_⟩
          · simp [UrlVersionMSFilter, ArchivedMSFilter, hmSpec, hmVer, hmArch]
          · simp [hmId, hmHash]
        rw [if_pos hany]

/-- C2 witness: a candidate at the ordinally lower version 0.9.0 yields
`(nil, nil)`. -/
theorem getUpgradeMicroserviceDef_no_change_witness :
    GetUpgradeMicroserviceDef (fun _ => .ok "vexp") (fun _ _ _ _ => .ok regEmsOld)
      (fun _ => .ok regHash) curMsDef (.ok []) = .ok none :=
  (getUpgradeMicroserviceDef_no_change (fun _ => .ok "vexp")
    (fun _ _ _ _ => .ok regEmsOld) (fun _ => .ok regHash) curMsDef (.ok [])
    [] emptyMsDef "vexp" regEmsOld regHash rfl rfl rfl).1 (by decide)

/-- C6: whenever the resolver returns a candidate, the candidate's `Name`,
`UpgradeVersionRange`, `AutoUpgrade` and `ActiveUpgrade` are the old
definition's values. -/
theorem getUpgradeMicroserviceDef_copies_forward
    (vf : String → Except String String)
    (gm : String → String → String → String →
      Except String ExchangeMicroserviceDefinition)
    (mh : ExchangeMicroserviceDefinition → Except String (List Nat))
    (msdef nd : MicroserviceDefinition)
    (db : Except String (List MicroserviceDefinition))
    (hres : GetUpgradeMicroserviceDef vf gm mh msdef db = .ok (some nd)) :
    nd.Name = msdef.Name ∧ nd.UpgradeVersionRange = msdef.UpgradeVersionRange ∧
    nd.AutoUpgrade = msdef.AutoUpgrade ∧
    nd.ActiveUpgrade = msdef.ActiveUpgrade := by
  unfold GetUpgradeMicroserviceDef at hres
  cases hvf : vf msdef.UpgradeVersionRange with
  | error e => simp only [hvf] at hres; simp at hres
  | ok vExp =>
  simp only [hvf] at hres
  cases hgm : gm msdef.SpecRef msdef.Org vExp msdef.Arch with
  | error e => simp only [hgm] at hres; simp at hres
  | ok ems =>
  simp only [hgm] at hres
  cases hcv : ConvertToPersistent mh ems msdef.Org with
  | error e => simp only [hcv] at hres; simp at hres
  | ok newd =>
  simp only [hcv] at hres
  by_cases h1 : goStringCompare ems.Version msdef.Version < 0
  · rw [if_pos h1] at hres; simp at hres
  · rw [if_neg h1] at hres
    by_cases h2 : goStringCompare ems.Version msdef.Version = 0 ∧
        msdef.MetadataHash = newd.MetadataHash
    · rw [if_pos h2] at hres; simp at hres
    · rw [if_neg h2] at hres
      by_cases h3 : msdef.UpgradeNewMsId ≠ ""
      · rw [if_pos h3] at hres
        cases hdb : FindMicroserviceDefs db
            [UrlVersionMSFilter newd.SpecRef newd.Version, ArchivedMSFilter] with
        | error e => simp only [hdb] at hres; simp at hres
        | ok msdefs =>
          simp only [hdb] at hres
          by_cases h4 : msdefs.any (fun ms => msdef.UpgradeNewMsId == ms.Id &&
              ms.MetadataHash == newd.MetadataHash) = true
          · rw [if_pos h4] at hres; simp at hres
          · rw [if_neg h4] at hres
            simp only [Except.ok.injEq, Option.some.injEq] at hres
            subst hres
            simp
      · rw [if_neg h3] at hres
        simp only [Except.ok.injEq, Option.some.injEq] at hres
        subst hres
        simp

/-- C6 witness: the concrete upgrade of `noRetryMsDef` to version 2.0.0
keeps its node-local choices. -/
theorem getUpgradeMicroserviceDef_copies_forward_witness :
    upgradedMsDef.Name = noRetryMsDef.Name ∧
    upgradedMsDef.UpgradeVersionRange = noRetryMsDef.UpgradeVersionRange ∧
    upgradedMsDef.AutoUpgrade = noRetryMsDef.AutoUpgrade ∧
    upgradedMsDef.ActiveUpgrade = noRetryMsDef.ActiveUpgrade :=
  getUpgradeMicroserviceDef_copies_forward (fun _ => .ok "vexp")
    (fun _ _ _ _ => .ok regEms) (fun _ => .ok regHash) noRetryMsDef
    upgradedMsDef (.ok []) (by decide)


/-- Every run of the policy compiler either fails with no emission or
succeeds emitting exactly one message. -/
theorem genMicroservicePolicy_shape
    (fa : Except String (List Attribute))
    (conv : List PropValue → Except String (List String))
    (gp : PolicyInputs → Except String Message)
    (msdef : MicroserviceDefinition) :
    (∃ s, GenMicroservicePolicy fa conv gp msdef = (.error s, [])) ∨
    (∃ msg, GenMicroservicePolicy fa conv gp msdef = (.ok (), [msg])) := by
  unfold GenMicroservicePolicy
  repeat' split
  all_goals first
    | exact Or.inl ⟨_, rfl⟩
    | exact Or.inr ⟨_, rfl⟩

/-- C4: an attribute-store error, or a conversion failure of the
agreement-protocol attribute, makes `GenMicroservicePolicy` return an
error with nothing sent on the event channel; a message is sent only when
the whole compilation succeeds. -/
theorem genMicroservicePolicy_no_partial_emit
    (fa : Except String (List Attribute))
    (conv : List PropValue → Except String (List String))
    (gp : PolicyInputs → Except String Message)
    (msdef : MicroserviceDefinition) :
    (∀ e, fa = .error e →
      ∃ s, GenMicroservicePolicy fa conv gp msdef = (.error s, [])) ∧
    ((∀ x, ∃ e, conv x = .error e) →
      ∃ s, GenMicroservicePolicy fa conv gp msdef = (.error s, [])) ∧
    ((GenMicroservicePolicy fa conv gp msdef).2 ≠ [] →
      (GenMicroservicePolicy fa conv gp msdef).1 = .ok ()) := by
  refine ⟨?_, ?_, ?_⟩
  · intro e he
    subst he
    exact ⟨_, rfl⟩
  · intro hconv
    cases fa with
    | error e => exact ⟨_, rfl⟩
    | ok attrs =>
      obtain ⟨e, he⟩ := hconv ((policyVarsFor attrs).serviceAgreementProtocols)
      simp only [GenMicroservicePolicy, he]
      exact ⟨_, rfl⟩
  · intro hne
    rcases genMicroservicePolicy_shape fa conv gp msdef with ⟨s, hs⟩ | ⟨msg, hm⟩
    · rw [hs] at hne
      exact absurd rfl hne
    · rw [hm]

/-- C4 witness: an attribute-store failure aborts with no emission. -/
theorem genMicroservicePolicy_no_partial_emit_witness :
    ∃ s, GenMicroservicePolicy (.error "store failure") (fun _ => .ok [])
      (fun i => .ok { inputs := i }) polMsDef = (.error s, []) :=
  (genMicroservicePolicy_no_partial_emit (.error "store failure")
    (fun _ => .ok []) (fun i => .ok { inputs := i }) polMsDef).1
    "store failure" rfl

/-- C9: the policy the compiler emits carries `maxAgreements = 1` for an
exclusive definition and `maxAgreements = 2` for a single or multiple
one. -/
theorem genMicroservicePolicy_maxAgreements
    (fa : Except String (List Attribute))
    (conv : List PropValue → Except String (List String))
    (msdef : MicroserviceDefinition) (msg : Message)
    (hrun : (GenMicroservicePolicy fa conv (fun i => .ok { inputs := i })
      msdef).2 = [msg]) :
    (msdef.Sharable = MS_SHARING_MODE_EXCLUSIVE →
      msg.inputs.maxAgreements = 1) ∧
    ((msdef.Sharable = MS_SHARING_MODE_SINGLE ∨
        msdef.Sharable = MS_SHARING_MODE_MULTIPLE) →
      msg.inputs.maxAgreements = 2) := by
  cases hfa : fa with
  | error e =>
    rw [hfa] at hrun
    simp [GenMicroservicePolicy] at hrun
  | ok attrs =>
    rw [hfa] at hrun
    simp only [GenMicroservicePolicy] at hrun
    cases hc : conv ((policyVarsFor attrs).serviceAgreementProtocols) with
    | error e =>
      rw [hc] at hrun
      simp at hrun
    | ok list =>
      rw [hc] at hrun
      simp only [List.cons.injEq, and_true] at hrun
      have hmax : msg.inputs.maxAgreements = maxAgreementsFor msdef.Sharable := by
        rw [← hrun]
      refine ⟨fun hex => ?_, fun hsm => ?_⟩
      · rw [hmax, hex]
        decide
      · rw [hmax]
        unfold maxAgreementsFor
        rw [if_pos hsm]

/-- C9 witness: compiling the exclusive definition `polMsDef` yields
`maxAgreements = 1`. -/
theorem genMicroservicePolicy_maxAgreements_witness :
    exclusivePolicyMsg.inputs.maxAgreements = 1 :=
  (genMicroservicePolicy_maxAgreements (.ok []) (fun _ => .ok []) polMsDef
    exclusivePolicyMsg (by decide)).1 rfl

/-- C7 counterexample: the key "loc" is defined by a common property
attribute and overridden by a specific one, but a second specific property
attribute (defining only "extra") follows it, so the emitted bag carries
the COMMON value for "loc" — only the last property attribute of each
group is merged, the specific override is lost. -/
theorem genMicroservicePolicy_override_counterexample :
    commonPropAttr = .property { SensorUrls := [] } [("loc", .str "common")] ∧
    specificPropAttr =
      .property { SensorUrls := ["https://ms/gps"] } [("loc", .str "specific")] ∧
    lastWinsRun.2.map (fun m => mapGet m.inputs.props "loc") =
      [some (PropValue.str "common")] ∧
    lastWinsRun.2 ≠ [] := by
  decide

/-- C7 (amended): when the common group's property attributes are exactly
one attribute with mappings `m1` and the specific group's are exactly one
with mappings `m2` (duplicate-free keys, as a Go map has), a key defined in
both receives the SPECIFIC value in the emitted property bag — common is
applied first, specific second, overriding; with several property
attributes in a group, only the last one of that group contributes. -/
theorem genMicroservicePolicy_specific_override
    (conv : List PropValue → Except String (List String))
    (msdef : MicroserviceDefinition) (metaC metaS : AttributeMeta)
    (m1 m2 : List (String × PropValue)) (k : String) (v1 v2 : PropValue)
    (msg : Message)
    (hC : metaC.SensorUrls = []) (hS : metaS.SensorUrls ≠ [])
    (h1 : mapGet m1 k = some v1) (h2 : mapGet m2 k = some v2)
    (hnd : (m2.map Prod.fst).Nodup)
    (hrun : (GenMicroservicePolicy
        (.ok [Attribute.property metaC m1, Attribute.property metaS m2])
        conv (fun i => .ok { inputs := i }) msdef).2 = [msg]) :
    mapGet msg.inputs.props k = some v2 := by
  have hm1 : m1 ≠ [] := by
    intro hnil
    rw [hnil] at h1
    simp [mapGet] at h1
  have hm2 : m2 ≠ [] := by
    intro hnil
    rw [hnil] at h2
    simp [mapGet] at h2
  have hie1 : m1.isEmpty = false := by
    cases m1 with
    | nil => exact absurd rfl hm1
    | cons a t => rfl
  have hie2 : m2.isEmpty = false := by
    cases m2 with
    | nil => exact absurd rfl hm2
    | cons a t => rfl
  have hfC : (Attribute.property metaC m1).getMeta.SensorUrls.isEmpty = true := by
    simp [Attribute.getMeta, hC]
  have hfS : (Attribute.property metaS m2).getMeta.SensorUrls.isEmpty = false := by
    obtain ⟨a, t, hat⟩ := List.exists_cons_of_ne_nil hS
    simp [Attribute.getMeta, hat]
  have hprops : (policyVarsFor
      [Attribute.property metaC m1, Attribute.property metaS m2]).props =
      m2.foldl (fun acc kv => mapPut acc kv.1 kv.2)
        (m1.foldl (fun acc kv => mapPut acc kv.1 kv.2) []) := by
    unfold policyVarsFor handleServiceAttributes
    simp [List.filter_cons, hfC, hfS, applyServiceAttr, initPolicyVars,
      hie1, hie2]
  simp only [GenMicroservicePolicy] at hrun
  cases hc : conv ((policyVarsFor
      [Attribute.property metaC m1, Attribute.property metaS m2]).serviceAgreementProtocols) with
  | error e =>
    rw [hc] at hrun
    simp at hrun
  | ok list =>
    rw [hc] at hrun
    simp only [List.cons.injEq, and_true] at hrun
    rw [← hrun]
    simp only []
    rw [hprops]
    exact mapGet_foldl_mapPut_of_mem m2 _ k v2 h2 hnd

/-- C7 witness: with one common and one specific property attribute both
defining "loc", the emitted bag carries the specific value. -/
theorem genMicroservicePolicy_specific_override_witness :
    mapGet overrideMsg.inputs.props "loc" = some (PropValue.str "specific") :=
  genMicroservicePolicy_specific_override (fun _ => .ok []) polMsDef
    { SensorUrls := [] } { SensorUrls := ["https://ms/gps"] }
    [("loc", .str "common")] [("loc", .str "specific")] "loc"
    (.str "common") (.str "specific") overrideMsg rfl (by decide)
    rfl rfl (by decide) (by decide)
